import Mathlib

/-!
Verification of `code_generation_helpers.py` (repository `grid_less`).

The Python module mutates an object (`self`) holding a growing CUDA source
buffer `code_str` and an integer `indent_level`.  We embed that state as
`GenState`.  The buffer is represented as the list of appended chunks: every
write in the source goes through `gen_add_code_line`, which appends
`indent_level * "    " + line + "\n"`; the physical file text is the
concatenation of each chunk followed by a newline, so the list of chunks is an
exact representation of the buffer.

Python string operations used by the source (`split("|")`, single-character
`replace`, `s[0]`, `"x" in s`) are modelled over `List Char` / `String.toList`
with small structurally recursive functions, each documented at its
definition.
-/

/-- Emission state: the accumulated output chunks (each one call to
`gen_add_code_line`) and the current indentation depth.  Python's
`indent_level` is an unbounded integer (it may go negative, since
`gen_add_end_control_flow` decrements unconditionally), hence `Int`. -/
structure GenState where
  code_str : List String
  indent_level : Int
deriving DecidableEq, Repr

/-- Python `indent_level * "    "`: a non-positive multiplier yields the empty
string, matching `Int.toNat`. -/
def indentStr (n : Int) : String :=
  String.join (List.replicate n.toNat "    ")

/-- `gen_add_code_line` (source lines 1-11): append
`indent_level * "    " + new_code_line + "\n"` to the buffer, then increment
the depth if `add_indent_after`. -/
def gen_add_code_line (s : GenState) (new_code_line : String) (add_indent_after : Bool) : GenState :=
  { code_str := s.code_str ++ [indentStr s.indent_level ++ new_code_line],
    indent_level := if add_indent_after then s.indent_level + 1 else s.indent_level }

/-- `gen_add_code_lines` (lines 13-24): emit each line via `gen_add_code_line`
(without the flag), then increment the depth once if `add_indent_after`. -/
def gen_add_code_lines (s : GenState) (new_code_lines : List String) (add_indent_after : Bool) : GenState :=
  let s := new_code_lines.foldl (fun s l => gen_add_code_line s l false) s
  if add_indent_after then { s with indent_level := s.indent_level + 1 } else s

/-- `gen_add_end_control_flow` (lines 26-30): unindent, then emit `}`. -/
def gen_add_end_control_flow (s : GenState) : GenState :=
  gen_add_code_line { s with indent_level := s.indent_level - 1 } "\x7d" false

/-- `gen_add_end_function` (lines 32-36): unindent, then emit `}\n`
(the chunk itself contains a newline, marking a blank line after the brace). -/
def gen_add_end_function (s : GenState) : GenState :=
  gen_add_code_line { s with indent_level := s.indent_level - 1 } "\x7d\n" false

/-- `gen_add_func_doc` (lines 38-62): Doxygen comment block. -/
def gen_add_func_doc (s : GenState) (func_desc : String) (notes params : List String)
    (return_val : Option String) : GenState :=
  let s := gen_add_code_line s "/**" false
  let s := gen_add_code_line s (" * " ++ func_desc) false
  let s := gen_add_code_line s " *" false
  let s :=
    if 0 < notes.length then
      let s := gen_add_code_line s " * Notes:" false
      let s := notes.foldl (fun s note => gen_add_code_line s (" *   " ++ note) false) s
      gen_add_code_line s " *" false
    else s
  let s := params.foldl (fun s p => gen_add_code_line s (" * @param " ++ p) false) s
  let s :=
    match return_val with
    | some r => gen_add_code_line s (" * @return " ++ r) false
    | none => s
  gen_add_code_line s " */" false

/-- `gen_add_serial_ops` (lines 64-77): open a block whose predicate holds for
exactly one participant. -/
def gen_add_serial_ops (s : GenState) (use_thread_group : Bool) : GenState :=
  if use_thread_group then
    gen_add_code_line s "if(tgrp.thread_rank() == 0)\x7b" true
  else
    gen_add_code_line s "if(threadIdx.x == 0 && threadIdx.y == 0)\x7b" true

/-- The loop-header text of `gen_add_parallel_loop` (lines 94-106).  In the
source the local `code` is assigned in three of the four branches; in the
`block_level ∧ use_thread_group` branch it stays unassigned, which we model
as `none`. -/
def parallel_loop_code (var_name max_val : String) (use_thread_group block_level : Bool) :
    Option String :=
  if block_level then
    if use_thread_group then none
    else some ("for(int " ++ var_name ++ " = blockIdx.x + blockIdx.y*gridDim.x; " ++
        var_name ++ " < " ++ max_val ++ "; " ++ var_name ++ " += gridDim.x*gridDim.y)\x7b")
  else
    if use_thread_group then
      some ("for(int " ++ var_name ++ " = tgrp.thread_rank(); " ++
        var_name ++ " < " ++ max_val ++ "; " ++ var_name ++ " += tgrp.size())\x7b")
    else
      some ("for(int " ++ var_name ++ " = threadIdx.x + threadIdx.y*blockDim.x; " ++
        var_name ++ " < " ++ max_val ++ "; " ++ var_name ++ " += blockDim.x*blockDim.y)\x7b")

/-- `gen_add_parallel_loop` (lines 79-107).  The first component is the
console output of the call (the `print` in the unsupported branch); the second
is the outcome: in the unsupported branch the function reaches line 107
`self.gen_add_code_line(code, True)` with the local `code` never assigned, so
Python raises `UnboundLocalError` and the emission state is left untouched. -/
def gen_add_parallel_loop (s : GenState) (var_name max_val : String)
    (use_thread_group block_level : Bool) : List String × Except String GenState :=
  let console : List String :=
    if block_level && use_thread_group then
      ["![ERROR]: BLOCK LEVEL THREAD GROUP LOOP NOT IMPLEMENTED YET"]
    else []
  match parallel_loop_code var_name max_val use_thread_group block_level with
  | some code => (console, .ok (gen_add_code_line s code true))
  | none => (console, .error "UnboundLocalError: local variable referenced before assignment")

/-- The always-successful instance of `gen_add_parallel_loop` used by the
kernel load/store helpers, which call it with `block_level = False`. -/
def gen_parallel_loop_nb (s : GenState) (var_name max_val : String) (use_thread_group : Bool) :
    GenState :=
  gen_add_code_line s ((parallel_loop_code var_name max_val use_thread_group false).getD "") true

/-- `gen_add_sync` (lines 115-125). -/
def gen_add_sync (s : GenState) (use_thread_group : Bool) : GenState :=
  if use_thread_group then gen_add_code_line s "tgrp.sync();" false
  else gen_add_code_line s "__syncthreads();" false

/-- `print_shared` (lines 128-146); the loop body string is built with
`str(size)`, `str(ncol)` and `str(6 * ncol)`. -/
def print_shared (s : GenState) (var : String) (ncol size : Nat) : GenState :=
  let content := "for (int i = 0; i < " ++ toString size ++ "; i++) \x7b" ++
      "printf(\"" ++ var ++ "[%d]\\n\", i);" ++
      "printMat<T,6," ++ toString ncol ++ ">(&" ++ var ++ "[" ++ toString (6 * ncol) ++
      "*i], 6);\x7d"
  let s := gen_add_sync s false
  let s := gen_add_serial_ops s false
  let s := gen_add_code_line s content false
  gen_add_end_control_flow s

/-- Python `text.split("|")` over the character list: split on every
occurrence of `'|'`. -/
def splitBar : List Char → List (List Char)
  | [] => [[]]
  | c :: cs =>
    if c = '|' then [] :: splitBar cs
    else
      match splitBar cs with
      | [] => [[c]]
      | g :: gs => (c :: g) :: gs

/-- Python `"sep" in text` for a single-character separator. -/
def containsBar (t : String) : Bool := t.toList.contains '|'

/-- A selection tuple `(dst_type, dst_var, select_list)` of
`gen_add_multi_threaded_select`. -/
def SelTuple := Option String × String × List String

/-- The destination text built in lines 163-171: `dst_var` alone for a `None`
type; `parts[0] + dst_var + ")" + parts[1]` of the `"|"`-split for a wrapper
type; `dst_type + " " + dst_var` otherwise. -/
def dst_entry : SelTuple → String
  | (none, dst_var, _) => dst_var
  | (some dst_type, dst_var, _) =>
    if containsBar dst_type then
      let parts := (splitBar dst_type.toList).map fun l => String.mk l
      parts.getD 0 "" ++ dst_var ++ ")" ++ parts.getD 1 ""
    else dst_type ++ " " ++ dst_var

/-- Python single-character `str.replace(a, b)`. -/
def str_replace_char (s : String) (a b : Char) : String :=
  String.mk (s.toList.map fun c => if c = a then b else c)

/-- Python `s[0]` (as a one-character string). -/
def first_char_str (s : String) : String := String.mk (s.toList.take 1)

/-- The inverse-comparator computation of lines 196-197:
flip the direction, then append `=` to a strict single-character result or
drop to the first character of a two-character result (keeping `==`). -/
def inverse_comparator_of (comparator : String) : String :=
  let ic :=
    if comparator.toList.contains '<' then str_replace_char comparator '<' '>'
    else str_replace_char comparator '>' '<'
  if ic.length = 1 then ic ++ "="
  else if ic ≠ "==" then first_char_str ic
  else ic

/-- Python `"sep".join(items)`. -/
def join_sep (sep : String) : List String → String
  | [] => ""
  | [x] => x
  | x :: xs => x ++ sep ++ join_sep sep xs

/-- One summand of the non-branching selector's expression (lines 200-209):
the indicator sub-expression chosen by the position `ind` among `n` buckets,
followed by `" * "` and the candidate. -/
def branch_term (loop_counter comparator inverse_comparator : String) (counts : List String)
    (n ind : Nat) (cand : String) : String :=
  (if ind = 0 ∨ comparator = "==" then
    (if comparator = "==" ∧ 0 < ind then " + " else "") ++
      "(" ++ loop_counter ++ " " ++ comparator ++ " " ++ counts.getD ind "" ++ ")"
  else if ind < n - 1 then
    " + (" ++ loop_counter ++ " " ++ comparator ++ " " ++ counts.getD ind "" ++ " && " ++
      loop_counter ++ " " ++ inverse_comparator ++ " " ++ counts.getD (ind - 1) "" ++ ")"
  else
    " + (" ++ loop_counter ++ " " ++ inverse_comparator ++ " " ++ counts.getD (ind - 1) "" ++ ")")
  ++ " * " ++ cand

/-- The text of arm `ind` of the branching strategy's chain (lines 180-190). -/
def arm_text (loop_counter comparator : String) (counts : List String)
    (select_tuples : List SelTuple) (n ind : Nat) : String :=
  let code_start :=
    if ind = 0 then
      "     if (" ++ loop_counter ++ " " ++ comparator ++ " " ++ counts.getD ind "" ++ ")\x7b "
    else if ind < n - 1 then
      "else if (" ++ loop_counter ++ " " ++ comparator ++ " " ++ counts.getD ind "" ++ ")\x7b "
    else "else              \x7b "
  let code_middle :=
    String.join (select_tuples.map fun t => t.2.1 ++ " = " ++ t.2.2.getD ind "" ++ "; ")
  code_start ++ code_middle ++ "\x7d"

/-- The branching strategy of `gen_add_multi_threaded_select`
(lines 173-190): comment, up-front declarations, then the `if`/`else if`/
`else` chain with one arm per entry of `counts`. -/
def select_branching (s : GenState) (loop_counter comparator : String) (counts : List String)
    (select_tuples : List SelTuple) : GenState :=
  let dst_code := select_tuples.map dst_entry
  let s := gen_add_code_line s "// branch to get pointer locations" false
  let s := gen_add_code_line s (join_sep "; " dst_code ++ ";") false
  let n := counts.length
  (List.range n).foldl
    (fun s ind => gen_add_code_line s (arm_text loop_counter comparator counts select_tuples n ind) false)
    s

/-- The assignment line the non-branching strategy emits for tuple `tuple_i`
(lines 198-210). -/
def nonbranch_line (loop_counter comparator : String) (counts : List String)
    (select_tuples : List SelTuple) (tuple_i : Nat) : String :=
  let n := counts.length
  let inverse_comparator := inverse_comparator_of comparator
  let t := select_tuples.getD tuple_i (none, "", [])
  let branch_code := String.join ((List.range n).map fun ind =>
    branch_term loop_counter comparator inverse_comparator counts n ind (t.2.2.getD ind ""))
  (select_tuples.map dst_entry).getD tuple_i "" ++ " = " ++ branch_code ++ ";"

/-- The non-branching strategy of `gen_add_multi_threaded_select`
(lines 192-210): comment, then one closed-form assignment per tuple. -/
def select_nonbranch (s : GenState) (loop_counter comparator : String) (counts : List String)
    (select_tuples : List SelTuple) : GenState :=
  let s := gen_add_code_line s "// non-branching pointer selector" false
  (List.range select_tuples.length).foldl
    (fun s tuple_i =>
      gen_add_code_line s (nonbranch_line loop_counter comparator counts select_tuples tuple_i) false)
    s

/-- `gen_add_multi_threaded_select` (lines 161-210): branching when more than
one tuple is supplied and the branch-free form is not forced, otherwise
non-branching. -/
def gen_add_multi_threaded_select (s : GenState) (loop_counter comparator : String)
    (counts : List String) (select_tuples : List SelTuple)
    (USE_NON_BRANCH_ALWAYS : Bool) : GenState :=
  if 1 < select_tuples.length ∧ USE_NON_BRANCH_ALWAYS = false then
    select_branching s loop_counter comparator counts select_tuples
  else
    select_nonbranch s loop_counter comparator counts select_tuples

/-- `gen_kernel_load_inputs` (lines 212-229). -/
def gen_kernel_load_inputs (s : GenState) (name stride amount : String) (use_thread_group : Bool)
    (name2 : Option String) (stride2 amount2 : String)
    (name3 : Option String) (stride3 amount3 : String) : GenState :=
  let s := gen_add_code_line s "// load to shared mem" false
  let s := gen_add_code_line s ("const T *d_" ++ name ++ "_k = &d_" ++ name ++ "[k*" ++ stride ++ "];") false
  let s := gen_parallel_loop_nb s "ind" amount use_thread_group
  let s := gen_add_code_line s ("s_" ++ name ++ "[ind] = d_" ++ name ++ "_k[ind];") false
  let s := gen_add_end_control_flow s
  let s :=
    match name2 with
    | none => s
    | some n2 =>
      let s := gen_add_code_line s ("const T *d_" ++ n2 ++ "_k = &d_" ++ n2 ++ "[k*" ++ stride2 ++ "];") false
      let s := gen_parallel_loop_nb s "ind" amount2 use_thread_group
      let s := gen_add_code_line s ("s_" ++ n2 ++ "[ind] = d_" ++ n2 ++ "_k[ind];") false
      gen_add_end_control_flow s
  let s :=
    match name3 with
    | none => s
    | some n3 =>
      let s := gen_add_code_line s ("const T *d_" ++ n3 ++ "_k = &d_" ++ n3 ++ "[k*" ++ stride3 ++ "];") false
      let s := gen_parallel_loop_nb s "ind" amount3 use_thread_group
      let s := gen_add_code_line s ("s_" ++ n3 ++ "[ind] = d_" ++ n3 ++ "_k[ind];") false
      gen_add_end_control_flow s
  gen_add_sync s use_thread_group

/-- `gen_kernel_save_result` (lines 231-239); a `None` `load_from_name`
defaults to `"s_" + store_to_name`. -/
def gen_kernel_save_result (s : GenState) (store_to_name stride amount : String)
    (use_thread_group : Bool) (load_from_name : Option String) : GenState :=
  let lfn := load_from_name.getD ("s_" ++ store_to_name)
  let s := gen_add_code_line s "// save down to global" false
  let s := gen_add_code_line s ("T *d_" ++ store_to_name ++ "_k = &d_" ++ store_to_name ++ "[k*" ++ stride ++ "];") false
  let s := gen_parallel_loop_nb s "ind" amount use_thread_group
  let s := gen_add_code_line s ("d_" ++ store_to_name ++ "_k[ind] = " ++ lfn ++ "[ind];") false
  let s := gen_add_end_control_flow s
  gen_add_sync s use_thread_group

/-- `gen_kernel_load_inputs_single_timing` (lines 241-255). -/
def gen_kernel_load_inputs_single_timing (s : GenState) (name amount : String)
    (use_thread_group : Bool) (name2 : Option String) (amount2 : String)
    (name3 : Option String) (amount3 : String) : GenState :=
  let s := gen_add_code_line s "// load to shared mem" false
  let s := gen_parallel_loop_nb s "ind" amount use_thread_group
  let s := gen_add_code_line s ("s_" ++ name ++ "[ind] = d_" ++ name ++ "[ind];") false
  let s := gen_add_end_control_flow s
  let s :=
    match name2 with
    | none => s
    | some n2 =>
      let s := gen_parallel_loop_nb s "ind" amount2 use_thread_group
      let s := gen_add_code_line s ("s_" ++ n2 ++ "[ind] = d_" ++ n2 ++ "[ind];") false
      gen_add_end_control_flow s
  let s :=
    match name3 with
    | none => s
    | some n3 =>
      let s := gen_parallel_loop_nb s "ind" amount3 use_thread_group
      let s := gen_add_code_line s ("s_" ++ n3 ++ "[ind] = d_" ++ n3 ++ "[ind];") false
      gen_add_end_control_flow s
  gen_add_sync s use_thread_group

/-- `gen_kernel_save_result_single_timing` (lines 257-264). -/
def gen_kernel_save_result_single_timing (s : GenState) (store_to_name amount : String)
    (use_thread_group : Bool) (load_from_name : Option String) : GenState :=
  let lfn := load_from_name.getD ("s_" ++ store_to_name)
  let s := gen_add_code_line s "// save down to global" false
  let s := gen_parallel_loop_nb s "ind" amount use_thread_group
  let s := gen_add_code_line s ("d_" ++ store_to_name ++ "[ind] = " ++ lfn ++ "[ind];") false
  let s := gen_add_end_control_flow s
  gen_add_sync s use_thread_group

/-!
Semantic layer for the selector.  Modelled from the spec: the generated text
is CUDA C++, outside this repository's source; a comparison
`a <op> b` on integers evaluates to a C boolean, which coerces to `1`/`0`
when multiplied.  `evalCmpStr` gives that meaning to the comparator strings
the generator accepts.
-/

/-- The value of `a <comparator> b` in the generated code, for integer
operands. -/
def evalCmpStr (op : String) (a b : Int) : Bool :=
  if op = "<" then decide (a < b)
  else if op = "<=" then decide (a ≤ b)
  else if op = ">" then decide (b < a)
  else if op = ">=" then decide (b ≤ a)
  else if op = "==" then decide (a = b)
  else false

/-- The value of the indicator sub-expression that `branch_term` emits at
position `ind` among `n` buckets (same branch structure as lines 200-209),
with thresholds evaluated to the integers `counts`. -/
def nonbranch_indicator (k : Int) (comparator inverse_comparator : String) (counts : List Int)
    (n ind : Nat) : Bool :=
  if ind = 0 ∨ comparator = "==" then evalCmpStr comparator k (counts.getD ind 0)
  else if ind < n - 1 then
    evalCmpStr comparator k (counts.getD ind 0) &&
      evalCmpStr inverse_comparator k (counts.getD (ind - 1) 0)
  else evalCmpStr inverse_comparator k (counts.getD (ind - 1) 0)

/-- The value of the whole non-branching expression for one destination:
the sum over all buckets of `indicator * candidate` (line 210), with the
candidate expressions evaluated to the integers `cands`. -/
def nonbranch_value (k : Int) (comparator : String) (counts cands : List Int) : Int :=
  let inverse_comparator := inverse_comparator_of comparator
  let n := counts.length
  ((List.range n).map fun ind =>
    (if nonbranch_indicator k comparator inverse_comparator counts n ind then (1 : Int) else 0) *
      cands.getD ind 0).sum

/-- The `else if`/`else` tail of the branching chain (arms `1..n-1` of
lines 180-190): every arm is guarded by its `counts` entry except the final
arm, which is the unconditional `else` (its `counts` entry is never read). -/
def elseIfChain (k : Int) (comparator : String) : List Int → List Int → Option Int
  | _, [v] => some v
  | c :: cs, v :: vs => if evalCmpStr comparator k c then some v else elseIfChain k comparator cs vs
  | _, _ => none

/-- The value the branching chain assigns to a destination: arm `0` is always
guarded (`if`), arms `1..n-2` are `else if`, the final arm (when `n ≥ 2`) is
the unconditional `else`.  `none` when no arm fires (only possible for
`n ≤ 1`, where the chain is a sole `if` with no `else`). -/
def branching_select (k : Int) (comparator : String) : List Int → List Int → Option Int
  | c :: cs, v :: vs =>
    if evalCmpStr comparator k c then some v else elseIfChain k comparator cs vs
  | _, _ => none

/-- The four relational comparators accepted by the selector. -/
@[reducible] def RelCmp (cmp : String) : Prop :=
  cmp = "<" ∨ cmp = "<=" ∨ cmp = ">" ∨ cmp = ">="

/-- Thresholds supplied in the monotonic order matching the comparator:
non-decreasing for `<`/`<=`, non-increasing for `>`/`>=`. -/
@[reducible] def MonoFor (cmp : String) (counts : List Int) : Prop :=
  ∀ j, j < counts.length → ∀ i, i ≤ j →
    if cmp = ">" ∨ cmp = ">=" then counts.getD j 0 ≤ counts.getD i 0
    else counts.getD i 0 ≤ counts.getD j 0

/-- The synchronization chunk `gen_add_sync` emits at depth `d`. -/
def sync_chunk (d : Int) (use_thread_group : Bool) : String :=
  indentStr d ++ (if use_thread_group then "tgrp.sync();" else "__syncthreads();")

/-- Chunks of one staged-copy block: loop header, copy line, closing brace. -/
def copy_block (d : Int) (amount : String) (u : Bool) (body : String) : List String :=
  [indentStr d ++ (parallel_loop_code "ind" amount u false).getD "",
    indentStr (d + 1) ++ body,
    indentStr d ++ "\x7d"]

/-- One call to the emission API. -/
inductive EmitCall where
  | code_line (text : String) (add_indent_after : Bool)
  | code_lines (texts : List String) (add_indent_after : Bool)
  | end_control_flow
  | end_function
  | func_doc (desc : String) (notes params : List String) (ret : Option String)
  | serial_ops (use_thread_group : Bool)
  | parallel_loop (var_name max_val : String) (use_thread_group block_level : Bool)
  | sync (use_thread_group : Bool)
  | print_shared_call (var : String) (ncol size : Nat)
  | multi_select (lc cmp : String) (counts : List String) (tuples : List SelTuple) (flag : Bool)
  | kernel_load (name st am : String) (n2 : Option String) (st2 am2 : String)
      (n3 : Option String) (st3 am3 : String) (u : Bool)
  | kernel_save (name st am : String) (u : Bool) (lfn : Option String)
  | kernel_load_single (name am : String) (u : Bool) (n2 : Option String) (am2 : String)
      (n3 : Option String) (am3 : String)
  | kernel_save_single (name am : String) (u : Bool) (lfn : Option String)

/-- Execute one emission call against the state (an `UnboundLocalError`
from the unsupported parallel-loop configuration propagates). -/
def runCall (s : GenState) : EmitCall → Except String GenState
  | .code_line t f => .ok (gen_add_code_line s t f)
  | .code_lines ts f => .ok (gen_add_code_lines s ts f)
  | .end_control_flow => .ok (gen_add_end_control_flow s)
  | .end_function => .ok (gen_add_end_function s)
  | .func_doc d ns ps r => .ok (gen_add_func_doc s d ns ps r)
  | .serial_ops u => .ok (gen_add_serial_ops s u)
  | .parallel_loop v m u b => (gen_add_parallel_loop s v m u b).2
  | .sync u => .ok (gen_add_sync s u)
  | .print_shared_call v nc sz => .ok (print_shared s v nc sz)
  | .multi_select lc cmp cs ts f => .ok (gen_add_multi_threaded_select s lc cmp cs ts f)
  | .kernel_load n st am n2 st2 am2 n3 st3 am3 u =>
    .ok (gen_kernel_load_inputs s n st am u n2 st2 am2 n3 st3 am3)
  | .kernel_save n st am u lfn => .ok (gen_kernel_save_result s n st am u lfn)
  | .kernel_load_single n am u n2 am2 n3 am3 =>
    .ok (gen_kernel_load_inputs_single_timing s n am u n2 am2 n3 am3)
  | .kernel_save_single n am u lfn => .ok (gen_kernel_save_result_single_timing s n am u lfn)

/-- Execute a sequence of emission calls. -/
def runCalls : GenState → List EmitCall → Except String GenState
  | s, [] => .ok s
  | s, c :: cs =>
    match runCall s c with
    | .ok s' => runCalls s' cs
    | .error e => .error e

/-- A call is supported unless it is the block-level thread-group loop. -/
def callSupported : EmitCall → Bool
  | .parallel_loop _ _ u b => !(b && u)
  | _ => true

/-- Number of indentation levels the call opens (per the claim: `code_line`
and `code_lines` with the flag, `serial_ops`, `parallel_loop`). -/
def openerCount : EmitCall → Nat
  | .code_line _ f => if f then 1 else 0
  | .code_lines _ f => if f then 1 else 0
  | .serial_ops _ => 1
  | .parallel_loop _ _ _ _ => 1
  | _ => 0

/-- Number of indentation levels the call closes. -/
def closerCount : EmitCall → Nat
  | .end_control_flow => 1
  | .end_function => 1
  | _ => 0

/-- Balanced sequence: as many closers as openers overall, and in no prefix
do the closers outnumber the openers before them. -/
@[reducible] def balanced (calls : List EmitCall) : Prop :=
  ((calls.map openerCount).sum = (calls.map closerCount).sum) ∧
  ∀ i, i ≤ calls.length →
    ((calls.take i).map closerCount).sum ≤ ((calls.take i).map openerCount).sum

theorem evalCmpStr_lt (a b : Int) : evalCmpStr "<" a b = decide (a < b) := rfl

theorem evalCmpStr_le (a b : Int) : evalCmpStr "<=" a b = decide (a ≤ b) := rfl

theorem evalCmpStr_gt (a b : Int) : evalCmpStr ">" a b = decide (b < a) := rfl

theorem evalCmpStr_ge (a b : Int) : evalCmpStr ">=" a b = decide (b ≤ a) := rfl

/-- For each relational comparator, the computed inverse comparator evaluates
to the boolean negation of the comparator: the two adjacent-bucket conditions
partition the line. -/
theorem inv_negates (cmp : String) (h : RelCmp cmp) (k c : Int) :
    evalCmpStr (inverse_comparator_of cmp) k c = !evalCmpStr cmp k c := by
  rcases h with h | h | h | h <;> subst h
  · rw [show inverse_comparator_of "<" = ">=" from by decide, evalCmpStr_ge, evalCmpStr_lt]
    simp only [← decide_not, decide_eq_decide]
    omega
  · rw [show inverse_comparator_of "<=" = ">" from by decide, evalCmpStr_gt, evalCmpStr_le]
    simp only [← decide_not, decide_eq_decide]
    omega
  · rw [show inverse_comparator_of ">" = "<=" from by decide, evalCmpStr_le, evalCmpStr_gt]
    simp only [← decide_not, decide_eq_decide]
    omega
  · rw [show inverse_comparator_of ">=" = "<" from by decide, evalCmpStr_lt, evalCmpStr_ge]
    simp only [← decide_not, decide_eq_decide]
    omega

theorem RelCmp.ne_eq {cmp : String} (h : RelCmp cmp) : cmp ≠ "==" := by
  rcases h with h | h | h | h <;> subst h <;> decide

/-- With monotonically ordered thresholds, once the comparator accepts a
threshold it accepts every later one. -/
theorem up_closed (cmp : String) (h : RelCmp cmp) (counts : List Int)
    (hm : MonoFor cmp counts) (k : Int) :
    ∀ i j, i ≤ j → j < counts.length →
      evalCmpStr cmp k (counts.getD i 0) = true → evalCmpStr cmp k (counts.getD j 0) = true := by
  intro i j hij hj ht
  have hmj := hm j hj i hij
  rcases h with h | h | h | h <;> subst h
  · rw [if_neg (by decide)] at hmj
    rw [evalCmpStr_lt, decide_eq_true_eq] at ht ⊢
    omega
  · rw [if_neg (by decide)] at hmj
    rw [evalCmpStr_le, decide_eq_true_eq] at ht ⊢
    omega
  · rw [if_pos (by decide)] at hmj
    rw [evalCmpStr_gt, decide_eq_true_eq] at ht ⊢
    omega
  · rw [if_pos (by decide)] at hmj
    rw [evalCmpStr_ge, decide_eq_true_eq] at ht ⊢
    omega

/-- An upward-closed acceptance pattern over the threshold list has a cut
index: thresholds strictly before it are rejected, the rest accepted. -/
theorem exists_cut (k : Int) (cmp : String) (counts : List Int)
    (hup : ∀ i j, i ≤ j → j < counts.length →
      evalCmpStr cmp k (counts.getD i 0) = true → evalCmpStr cmp k (counts.getD j 0) = true) :
    ∃ jc, ∀ i, i < counts.length →
      (evalCmpStr cmp k (counts.getD i 0) = true ↔ jc ≤ i) := by
  by_cases hex : ∃ i, i < counts.length ∧ evalCmpStr cmp k (counts.getD i 0) = true
  · refine ⟨Nat.find hex, fun i hi => ⟨fun ht => Nat.find_min' hex ⟨hi, ht⟩, fun hle => ?_⟩⟩
    exact hup (Nat.find hex) i hle hi (Nat.find_spec hex).2
  · refine ⟨counts.length, fun i hi => ⟨fun ht => absurd ⟨i, hi, ht⟩ hex, fun hle => ?_⟩⟩
    omega

/-- With at least two buckets and a relational comparator, the indicator at
position `i` is true exactly when `i` is the cut index clamped to the last
bucket. -/
theorem indicator_iff (k : Int) (cmp : String) (hne : cmp ≠ "==") (counts : List Int) (jc : Nat)
    (hinv : ∀ c, evalCmpStr (inverse_comparator_of cmp) k c = !evalCmpStr cmp k c)
    (hcut : ∀ i, i < counts.length →
      (evalCmpStr cmp k (counts.getD i 0) = true ↔ jc ≤ i))
    (hn : 2 ≤ counts.length) :
    ∀ i, i < counts.length →
      (nonbranch_indicator k cmp (inverse_comparator_of cmp) counts counts.length i = true ↔
        i = min jc (counts.length - 1)) := by
  intro i hi
  unfold nonbranch_indicator
  by_cases h0 : i = 0
  · subst h0
    rw [if_pos (Or.inl rfl), hcut 0 (by omega)]
    omega
  · rw [if_neg (by rintro (h | h) <;> [exact h0 h; exact hne h])]
    by_cases hmid : i < counts.length - 1
    · rw [if_pos hmid, Bool.and_eq_true, hinv, Bool.not_eq_eq_eq_not, Bool.not_true,
        ← Bool.not_eq_true, hcut i hi, hcut (i - 1) (by omega)]
      omega
    · rw [if_neg hmid, hinv, Bool.not_eq_eq_eq_not, Bool.not_true, ← Bool.not_eq_true,
        hcut (i - 1) (by omega)]
      omega

/-- Summing `indicator * candidate` over all buckets when exactly the bucket
`m` has a true indicator yields candidate `m`. -/
theorem sum_single (cands : List Int) (g : Nat → Bool) : ∀ n m : Nat, m < n →
    (∀ i, i < n → (g i = true ↔ i = m)) →
    ((List.range n).map fun i =>
      (if g i then (1 : Int) else 0) * cands.getD i 0).sum = cands.getD m 0 := by
  intro n
  induction n with
  | zero => intro m hm _; omega
  | succ n ih =>
    intro m hm hg
    rw [List.range_succ, List.map_append, List.sum_append]
    by_cases hmn : m = n
    · subst hmn
      have hz : ((List.range m).map fun i =>
          (if g i then (1 : Int) else 0) * cands.getD i 0).sum = 0 := by
        apply List.sum_eq_zero
        intro x hx
        obtain ⟨i, hi, rfl⟩ := List.mem_map.mp hx
        rw [List.mem_range] at hi
        have hgi : ¬ g i = true := by
          rw [hg i (by omega)]
          omega
        simp [hgi]
      rw [hz]
      have hgm : g m = true := by
        rw [hg m (by omega)]
      simp [hgm]
    · have hgn : ¬ g n = true := by
        rw [hg n (by omega)]
        omega
      have hrec := ih m (by omega) fun i hi => hg i (by omega)
      rw [hrec]
      simp [hgn]

/-- The `else if`/`else` tail of the chain picks the candidate at the cut
index (clamped to its final, unconditional arm). -/
theorem elseIfChain_cut (k : Int) (cmp : String) : ∀ (vs cs : List Int) (jc : Nat),
    cs.length = vs.length → vs ≠ [] →
    (∀ i, i < cs.length → (evalCmpStr cmp k (cs.getD i 0) = true ↔ jc ≤ i)) →
    elseIfChain k cmp cs vs = some (vs.getD (min jc (vs.length - 1)) 0) := by
  intro vs
  induction vs with
  | nil => intro cs jc _ hne _; exact absurd rfl hne
  | cons v vs' ih =>
    intro cs jc hlen _ hcut
    cases vs' with
    | nil =>
      cases cs with
      | nil => simp at hlen
      | cons c cs' => simp [elseIfChain]
    | cons v' vs'' =>
      cases cs with
      | nil => simp at hlen
      | cons c cs' =>
        have e : elseIfChain k cmp (c :: cs') (v :: v' :: vs'') =
            if evalCmpStr cmp k c = true then some v
            else elseIfChain k cmp cs' (v' :: vs'') := rfl
        by_cases hc : evalCmpStr cmp k c = true
        · have hjc : jc = 0 := by
            have h0 := (hcut 0 (by simp)).mp (by simpa using hc)
            omega
          subst hjc
          rw [e, if_pos hc]
          simp
        · have hjc : 1 ≤ jc := by
            by_contra h
            push_neg at h
            exact hc (by simpa using (hcut 0 (by simp)).mpr (by omega))
          have hcut' : ∀ i, i < cs'.length →
              (evalCmpStr cmp k (cs'.getD i 0) = true ↔ jc - 1 ≤ i) := by
            intro i hi
            constructor
            · intro ht
              have := (hcut (i + 1) (by simp; omega)).mp (by simpa using ht)
              omega
            · intro hle
              have := (hcut (i + 1) (by simp; omega)).mpr (by omega)
              simpa using this
          have hrec := ih cs' (jc - 1) (by simpa using hlen) (by simp) hcut'
          rw [e, if_neg hc, hrec]
          have hmin : min jc ((v :: v' :: vs'').length - 1) =
              min (jc - 1) ((v' :: vs'').length - 1) + 1 := by
            simp
            omega
          rw [hmin]
          simp

/-- The branching chain's value is the candidate at the cut index, clamped to
the final arm; for a single bucket the lone `if` arm requires the cut to be
inside the list. -/
theorem branching_select_cut (k : Int) (cmp : String) (counts cands : List Int) (jc : Nat)
    (hlen : counts.length = cands.length)
    (hcut : ∀ i, i < counts.length →
      (evalCmpStr cmp k (counts.getD i 0) = true ↔ jc ≤ i))
    (hne : counts ≠ [])
    (hjc : jc < counts.length ∨ 2 ≤ counts.length) :
    branching_select k cmp counts cands = some (cands.getD (min jc (cands.length - 1)) 0) := by
  cases counts with
  | nil => exact absurd rfl hne
  | cons c cs =>
    cases cands with
    | nil => simp at hlen
    | cons v vs =>
      have e : branching_select k cmp (c :: cs) (v :: vs) =
          if evalCmpStr cmp k c = true then some v else elseIfChain k cmp cs vs := rfl
      by_cases hc : evalCmpStr cmp k c = true
      · have hjc0 : jc = 0 := by
          have h0 := (hcut 0 (by simp)).mp (by simpa using hc)
          omega
        subst hjc0
        rw [e, if_pos hc]
        simp
      · have hjc1 : 1 ≤ jc := by
          by_contra h
          push_neg at h
          exact hc (by simpa using (hcut 0 (by simp)).mpr (by omega))
        cases vs with
        | nil =>
          exfalso
          have hl : cs.length = 0 := by simpa using hlen
          rcases hjc with h | h
          · simp at h
            omega
          · simp at h
            omega
        | cons v' vs'' =>
          have hcut' : ∀ i, i < cs.length →
              (evalCmpStr cmp k (cs.getD i 0) = true ↔ jc - 1 ≤ i) := by
            intro i hi
            constructor
            · intro ht
              have := (hcut (i + 1) (by simp; omega)).mp (by simpa using ht)
              omega
            · intro hle
              have := (hcut (i + 1) (by simp; omega)).mpr (by omega)
              simpa using this
          rw [e, if_neg hc,
            elseIfChain_cut k cmp (v' :: vs'') cs (jc - 1) (by simpa using hlen) (by simp) hcut']
          have hmin : min jc ((v :: v' :: vs'').length - 1) =
              min (jc - 1) ((v' :: vs'').length - 1) + 1 := by
            simp
            omega
          rw [hmin]
          simp

/-- C1: for every selection specification whose candidate list has exactly
one entry per threshold and whose thresholds are in the monotonic order
matching the (relational) comparator, and for every concrete `loop_counter`
value lying in bucket `i` (the emitted indicator for bucket `i` evaluates to
true), the branch-free expression of `gen_add_multi_threaded_select`
evaluates to the same value that the branching strategy's conditional chain
assigns: both yield candidate `i`. -/
theorem C1_branchfree_equals_branching (cmp : String) (hcmp : RelCmp cmp)
    (counts cands : List Int) (hlen : counts.length = cands.length)
    (hmono : MonoFor cmp counts) (i : Nat) (hi : i < counts.length) (k : Int)
    (hbucket : nonbranch_indicator k cmp (inverse_comparator_of cmp) counts counts.length i
      = true) :
    branching_select k cmp counts cands = some (cands.getD i 0) ∧
    nonbranch_value k cmp counts cands = cands.getD i 0 := by
  have hne := hcmp.ne_eq
  have hinv := inv_negates cmp hcmp k
  have hup := up_closed cmp hcmp counts hmono k
  obtain ⟨jc, hcut⟩ := exists_cut k cmp counts hup
  by_cases hn2 : 2 ≤ counts.length
  · have hiff := indicator_iff k cmp hne counts jc hinv hcut hn2
    have him : i = min jc (counts.length - 1) := (hiff i hi).mp hbucket
    constructor
    · rw [branching_select_cut k cmp counts cands jc hlen hcut
        (by rintro rfl; simp at hi) (Or.inr hn2)]
      rw [← hlen, ← him]
    · simp only [nonbranch_value]
      apply sum_single cands _ counts.length i hi
      intro j hj
      rw [hiff j hj, ← him]
  · have hn1 : counts.length = 1 := by omega
    have hi0 : i = 0 := by omega
    subst hi0
    have e : nonbranch_indicator k cmp (inverse_comparator_of cmp) counts counts.length 0 =
        evalCmpStr cmp k (counts.getD 0 0) := by
      unfold nonbranch_indicator
      rw [if_pos (Or.inl rfl)]
    have hP0 : evalCmpStr cmp k (counts.getD 0 0) = true := by
      rw [← e]
      exact hbucket
    have hjc0 : jc = 0 := by
      have := (hcut 0 (by omega)).mp hP0
      omega
    subst hjc0
    constructor
    · rw [branching_select_cut k cmp counts cands 0 hlen hcut
        (by rintro rfl; simp at hn1) (Or.inl (by omega))]
      simp
    · simp only [nonbranch_value]
      apply sum_single cands _ counts.length 0 (by omega)
      intro j hj
      have hj0 : j = 0 := by omega
      subst hj0
      simp [hbucket]

/-- Witness for C1 at a concrete input: comparator `<`, thresholds `[3, 7]`,
candidates `[10, 20]`, `loop_counter = 5` lying in bucket 1. -/
theorem C1_branchfree_equals_branching_witness :
    branching_select 5 "<" [3, 7] [10, 20] = some ((20 : Int)) ∧
    nonbranch_value 5 "<" [3, 7] [10, 20] = 20 :=
  C1_branchfree_equals_branching "<" (by decide) [3, 7] [10, 20] (by decide) (by decide)
    1 (by decide) 5 (by decide)

/-- C2 (amended: at least two thresholds): for each relational comparator
with monotonically ordered thresholds, the emitted indicators have the
claimed shape — bucket 0 is `loop_counter <comparator> threshold[0]`, bucket
`N-1` is `loop_counter <inverse_comparator> threshold[N-2]`, middle bucket
`i` is the conjunction of `loop_counter <comparator> threshold[i]` and
`loop_counter <inverse_comparator> threshold[i-1]` — and for every integer
`loop_counter` exactly one of the `N` indicators evaluates to 1. -/
theorem C2_indicator_partition (cmp : String) (hcmp : RelCmp cmp) (counts : List Int)
    (hn : 2 ≤ counts.length) (hmono : MonoFor cmp counts) (k : Int) :
    nonbranch_indicator k cmp (inverse_comparator_of cmp) counts counts.length 0 =
      evalCmpStr cmp k (counts.getD 0 0) ∧
    (∀ i, 0 < i → i < counts.length - 1 →
      nonbranch_indicator k cmp (inverse_comparator_of cmp) counts counts.length i =
        (evalCmpStr cmp k (counts.getD i 0) &&
          evalCmpStr (inverse_comparator_of cmp) k (counts.getD (i - 1) 0))) ∧
    nonbranch_indicator k cmp (inverse_comparator_of cmp) counts counts.length
        (counts.length - 1) =
      evalCmpStr (inverse_comparator_of cmp) k (counts.getD (counts.length - 2) 0) ∧
    ∃! i, i < counts.length ∧
      nonbranch_indicator k cmp (inverse_comparator_of cmp) counts counts.length i = true := by
  have hne := hcmp.ne_eq
  have hinv := inv_negates cmp hcmp k
  have hup := up_closed cmp hcmp counts hmono k
  obtain ⟨jc, hcut⟩ := exists_cut k cmp counts hup
  have hiff := indicator_iff k cmp hne counts jc hinv hcut hn
  refine ⟨?_, ?_, ?_, ?_⟩
  · unfold nonbranch_indicator
    rw [if_pos (Or.inl rfl)]
  · intro i h0 hlt
    unfold nonbranch_indicator
    rw [if_neg fun hor => hor.elim (fun h => absurd h (by omega)) hne, if_pos hlt]
  · unfold nonbranch_indicator
    rw [if_neg fun hor => hor.elim (fun h => absurd h (by omega)) hne, if_neg (by omega)]
    have e2 : counts.length - 1 - 1 = counts.length - 2 := by omega
    rw [e2]
  · refine ⟨min jc (counts.length - 1), ⟨by omega, (hiff _ (by omega)).mpr rfl⟩, ?_⟩
    intro y hy
    exact (hiff y hy.1).mp hy.2

/-- Witness for C2 at a concrete input: comparator `<`, thresholds `[3, 7]`,
`loop_counter = 5`. -/
theorem C2_indicator_partition_witness :
    ∃! i, i < ([3, 7] : List Int).length ∧
      nonbranch_indicator 5 "<" (inverse_comparator_of "<") [3, 7]
        ([3, 7] : List Int).length i = true :=
  (C2_indicator_partition "<" (by decide) [3, 7] (by decide) (by decide) 5).2.2.2

/-- Counterexample to C2 as stated: with a single threshold (`N = 1`,
trivially in monotonic order for `<`), the sole emitted indicator is
`loop_counter < threshold[0]`, and for `loop_counter = 7`, `threshold = 5`
no indicator evaluates to 1, so the indicators are not exhaustive. -/
theorem C2_counterexample :
    MonoFor "<" [5] ∧
    ¬ ∃ i, i < ([5] : List Int).length ∧
      nonbranch_indicator 7 "<" (inverse_comparator_of "<") [5]
        ([5] : List Int).length i = true := by
  constructor
  · decide
  · rintro ⟨i, hi, hind⟩
    have hi0 : i = 0 := by simpa using hi
    subst hi0
    exact absurd hind (by decide)

/-- A fold of unindented `gen_add_code_line` calls appends one chunk per
element at the current depth and leaves the depth unchanged. -/
theorem foldl_lines_spec {α : Type} (tf : α → String) : ∀ (l : List α) (s : GenState),
    l.foldl (fun st x => gen_add_code_line st (tf x) false) s =
      ⟨s.code_str ++ l.map (fun x => indentStr s.indent_level ++ tf x), s.indent_level⟩ := by
  intro l
  induction l with
  | nil => intro s; simp
  | cons a l ih =>
    intro s
    rw [List.foldl_cons, ih]
    simp [gen_add_code_line]

/-- Explicit chunk list emitted by the branching strategy. -/
theorem select_branching_spec (s : GenState) (lc cmp : String) (counts : List String)
    (tuples : List SelTuple) :
    select_branching s lc cmp counts tuples =
      ⟨s.code_str ++
        (indentStr s.indent_level ++ "// branch to get pointer locations") ::
        (indentStr s.indent_level ++ (join_sep "; " (tuples.map dst_entry) ++ ";")) ::
        (List.range counts.length).map
          (fun ind => indentStr s.indent_level ++ arm_text lc cmp counts tuples counts.length ind),
        s.indent_level⟩ := by
  simp only [select_branching]
  rw [foldl_lines_spec]
  simp [gen_add_code_line]

/-- Explicit chunk list emitted by the non-branching strategy. -/
theorem select_nonbranch_spec (s : GenState) (lc cmp : String) (counts : List String)
    (tuples : List SelTuple) :
    select_nonbranch s lc cmp counts tuples =
      ⟨s.code_str ++
        (indentStr s.indent_level ++ "// non-branching pointer selector") ::
        (List.range tuples.length).map
          (fun ti => indentStr s.indent_level ++ nonbranch_line lc cmp counts tuples ti),
        s.indent_level⟩ := by
  simp only [select_nonbranch]
  rw [foldl_lines_spec]
  simp [gen_add_code_line]

/-- C4: `gen_add_multi_threaded_select` uses the branching strategy exactly
when more than one selection tuple is supplied and `USE_NON_BRANCH_ALWAYS`
is false; otherwise (single tuple, or flag forced) it uses the branch-free
strategy — witnessed by which strategy comment is the first chunk the call
appends. -/
theorem C4_strategy_dispatch (s : GenState) (lc cmp : String) (counts : List String)
    (tuples : List SelTuple) (flag : Bool) :
    gen_add_multi_threaded_select s lc cmp counts tuples flag =
      (if 1 < tuples.length ∧ flag = false
       then select_branching s lc cmp counts tuples
       else select_nonbranch s lc cmp counts tuples) ∧
    ((gen_add_multi_threaded_select s lc cmp counts tuples flag).code_str.drop
        s.code_str.length).head? =
      some (indentStr s.indent_level ++
        (if 1 < tuples.length ∧ flag = false
         then "// branch to get pointer locations"
         else "// non-branching pointer selector")) := by
  refine ⟨rfl, ?_⟩
  unfold gen_add_multi_threaded_select
  split
  · rw [select_branching_spec]
    simp [List.drop_left]
  · rw [select_nonbranch_spec]
    simp [List.drop_left]

/-- Counterexample to C3 as stated: with comparator `<`, thresholds
`["6","12"]` and the single tuple `("int","n",["1","2","3"])`, the call takes
the branch-free strategy (a single tuple never branches) and emits
`int n = (k < 6) * 1 + (k >= 6) * 2;` — two buckets, candidate `"3"` unused —
not the claimed three-term expression, which appears in no emitted chunk. -/
theorem C3_counterexample :
    (gen_add_multi_threaded_select ⟨[], 0⟩ "k" "<" ["6", "12"]
        [(some "int", "n", ["1", "2", "3"])] false).code_str =
      ["// non-branching pointer selector", "int n = (k < 6) * 1 + (k >= 6) * 2;"] ∧
    (∀ chunk ∈ (gen_add_multi_threaded_select ⟨[], 0⟩ "k" "<" ["6", "12"]
        [(some "int", "n", ["1", "2", "3"])] false).code_str,
      chunk ≠ "n = (k<6)*1 + (k<12 && k>=6)*2 + (k>=12)*3;" ∧
      chunk ≠ "int n = (k < 6) * 1 + (k < 12 && k >= 6) * 2 + (k >= 12) * 3;") := by
  decide

/-- C3 (amended): the number of buckets equals the number of threshold
entries, the last entry being an unused sentinel.  With thresholds
`["6","12"]` the single-tuple call emits the two-bucket branch-free line;
the claimed outputs arise from a three-entry threshold list `["6","12",t]`:
a single tuple gives `int n = (k < 6) * 1 + (k < 12 && k >= 6) * 2 +
(k >= 12) * 3;`, and two tuples give the three-arm chain (each arm assigning
every destination), the last arm unconditional. -/
theorem C3_concrete_outputs :
    (gen_add_multi_threaded_select ⟨[], 0⟩ "k" "<" ["6", "12"]
        [(some "int", "n", ["1", "2", "3"])] false).code_str =
      ["// non-branching pointer selector", "int n = (k < 6) * 1 + (k >= 6) * 2;"] ∧
    (gen_add_multi_threaded_select ⟨[], 0⟩ "k" "<" ["6", "12", "18"]
        [(some "int", "n", ["1", "2", "3"])] false).code_str =
      ["// non-branching pointer selector",
        "int n = (k < 6) * 1 + (k < 12 && k >= 6) * 2 + (k >= 12) * 3;"] ∧
    (gen_add_multi_threaded_select ⟨[], 0⟩ "k" "<" ["6", "12", "18"]
        [(some "int", "n", ["1", "2", "3"]), (some "int", "m", ["1", "2", "3"])]
        false).code_str =
      ["// branch to get pointer locations", "int n; int m;",
        "     if (k < 6)\x7b n = 1; m = 1; \x7d",
        "else if (k < 12)\x7b n = 2; m = 2; \x7d",
        "else              \x7b n = 3; m = 3; \x7d"] := by
  decide

/-- C5: calling `gen_add_parallel_loop` with `block_level` and
`use_thread_group` both true prints the configuration-error message and then
crashes: line 107 reads the local `code`, which the error branch never
assigned, so the call raises `UnboundLocalError` instead of the
warning-and-skip the claim describes.  No text is appended and the depth is
untouched (the raise happens before any emission). -/
theorem C5_unsupported_parallel_loop (s : GenState) (var_name max_val : String) :
    gen_add_parallel_loop s var_name max_val true true =
      (["![ERROR]: BLOCK LEVEL THREAD GROUP LOOP NOT IMPLEMENTED YET"],
        Except.error "UnboundLocalError: local variable referenced before assignment") := rfl

theorem splitBar_no_bar : ∀ q : List Char, '|' ∉ q → splitBar q = [q] := by
  intro q
  induction q with
  | nil => intro _; rfl
  | cons c cs ih =>
    intro h
    have hc : ¬ c = '|' := fun e => h (by simp [e])
    simp only [splitBar, if_neg hc]
    rw [ih fun hm => h (List.mem_cons_of_mem c hm)]

theorem splitBar_append : ∀ p q : List Char, '|' ∉ p →
    splitBar (p ++ '|' :: q) = p :: splitBar q := by
  intro p
  induction p with
  | nil =>
    intro q _
    simp [splitBar]
  | cons c cs ih =>
    intro q h
    have hc : ¬ c = '|' := fun e => h (by simp [e])
    have hrec := ih q fun hm => h (List.mem_cons_of_mem c hm)
    simp only [List.cons_append, splitBar, if_neg hc, List.append_eq, hrec]

/-- Counterexample to C9 as stated: for the wrapper type `"a|b"` and
destination `"x"` the emitted destination text is `"ax)b"` — the code inserts
a closing parenthesis between the name and the suffix — not the plain
concatenation `"axb"` the claim describes. -/
theorem C9_counterexample :
    dst_entry (some "a|b", "x", ["7"]) = "ax)b" ∧
    "ax)b" ≠ "a" ++ "x" ++ "b" ∧
    (gen_add_multi_threaded_select ⟨[], 0⟩ "k" "<" ["5"]
        [(some "a|b", "x", ["7"])] false).code_str =
      ["// non-branching pointer selector", "ax)b = (k < 5) * 7;"] := by
  decide

theorem splitBar_head : ∀ l : List Char,
    ∃ gs, splitBar l = (l.takeWhile fun c => !(c == '|')) :: gs := by
  intro l
  induction l with
  | nil => exact ⟨[], rfl⟩
  | cons c cs ih =>
    by_cases hc : c = '|'
    · subst hc
      exact ⟨splitBar cs, by simp [splitBar, List.takeWhile]⟩
    · obtain ⟨gs, hgs⟩ := ih
      refine ⟨gs, ?_⟩
      simp only [splitBar, if_neg hc, hgs, List.takeWhile]
      rw [show (!(c == '|')) = true from by simp [hc]]

/-- C9 (amended): for a type annotation containing the wrapper separator —
written uniquely as `p ++ "|" ++ rest` with `p` the (separator-free) text
before the first separator and `rest` the arbitrary remainder, which may
contain further separators — the emitted destination text is `p`, then the
destination name, then a closing parenthesis `)`, then the segment of `rest`
up to its next separator (all of `rest` when there is no second
separator). -/
theorem C9_wrapper_declaration (p rest : List Char) (hp : '|' ∉ p)
    (v : String) (cands : List String) :
    dst_entry (some (String.mk (p ++ '|' :: rest)), v, cands) =
      String.mk p ++ v ++ ")" ++ String.mk (rest.takeWhile fun c => !(c == '|')) := by
  have hbar : containsBar (String.mk (p ++ '|' :: rest)) = true := by
    simp [containsBar, String.toList]
  simp only [dst_entry, if_pos hbar]
  rw [show (String.mk (p ++ '|' :: rest)).toList = p ++ '|' :: rest from rfl,
    splitBar_append p rest hp]
  obtain ⟨gs, hgs⟩ := splitBar_head rest
  rw [hgs]
  simp

/-- Witness for C9 (amended) at the two-separator wrapper `"a|b|c"`: the
emitted text is `"ax)b"` — the segment between the separators, not the whole
remainder. -/
theorem C9_wrapper_declaration_witness :
    dst_entry (some (String.mk (['a'] ++ '|' :: ['b', '|', 'c'])), "x", ["7"]) =
      String.mk ['a'] ++ "x" ++ ")" ++
        String.mk (['b', '|', 'c'].takeWhile fun c => !(c == '|')) :=
  C9_wrapper_declaration ['a'] ['b', '|', 'c'] (by decide) "x" ["7"]

/-- Counterexample to C10 as stated: for `N = 1` the single threshold IS the
last threshold (`entry N-1 = entry 0`) and it does appear in the output —
two single-threshold calls differing only in that entry emit different
text. -/
theorem C10_counterexample :
    (gen_add_multi_threaded_select ⟨[], 0⟩ "k" "<" ["5"]
        [(none, "x", ["1"])] false).code_str =
      ["// non-branching pointer selector", "x = (k < 5) * 1;"] ∧
    (gen_add_multi_threaded_select ⟨[], 0⟩ "k" "<" ["7"]
        [(none, "x", ["1"])] false).code_str =
      ["// non-branching pointer selector", "x = (k < 7) * 1;"] ∧
    gen_add_multi_threaded_select ⟨[], 0⟩ "k" "<" ["5"] [(none, "x", ["1"])] false ≠
      gen_add_multi_threaded_select ⟨[], 0⟩ "k" "<" ["7"] [(none, "x", ["1"])] false := by
  decide

/-- C10 (amended: `N ≥ 2`): for every comparator other than `==` and
threshold lists of equal length `N ≥ 2` agreeing on entries `0..N-2`, the
emitted text is identical under the branching strategy, the branch-free
strategy, and the dispatching call itself — entry `N-1` never appears. -/
theorem C10_last_threshold_unused (cmp : String) (hcmp : cmp ≠ "==")
    (counts₁ counts₂ : List String) (hlen : counts₁.length = counts₂.length)
    (hn : 2 ≤ counts₁.length)
    (hagree : ∀ i, i < counts₁.length - 1 → counts₁.getD i "" = counts₂.getD i "")
    (s : GenState) (lc : String) (tuples : List SelTuple) (flag : Bool) :
    select_branching s lc cmp counts₁ tuples = select_branching s lc cmp counts₂ tuples ∧
    select_nonbranch s lc cmp counts₁ tuples = select_nonbranch s lc cmp counts₂ tuples ∧
    gen_add_multi_threaded_select s lc cmp counts₁ tuples flag =
      gen_add_multi_threaded_select s lc cmp counts₂ tuples flag := by
  have harm : ∀ ind, ind < counts₁.length →
      arm_text lc cmp counts₁ tuples counts₁.length ind =
        arm_text lc cmp counts₂ tuples counts₁.length ind := by
    intro ind hind
    simp only [arm_text]
    by_cases h0 : ind = 0
    · subst h0
      rw [if_pos rfl, if_pos rfl, hagree 0 (by omega)]
    · by_cases hmid : ind < counts₁.length - 1
      · rw [if_neg h0, if_neg h0, if_pos hmid, if_pos hmid, hagree ind (by omega)]
      · rw [if_neg h0, if_neg h0, if_neg hmid, if_neg hmid]
  have hterm : ∀ ind cand, ind < counts₁.length →
      branch_term lc cmp (inverse_comparator_of cmp) counts₁ counts₁.length ind cand =
        branch_term lc cmp (inverse_comparator_of cmp) counts₂ counts₁.length ind cand := by
    intro ind cand hind
    simp only [branch_term]
    by_cases h0 : ind = 0 ∨ cmp = "=="
    · have hi0 : ind = 0 := h0.elim id fun h => absurd h hcmp
      subst hi0
      rw [if_pos h0, if_pos h0, hagree 0 (by omega)]
    · by_cases hmid : ind < counts₁.length - 1
      · rw [if_neg h0, if_neg h0, if_pos hmid, if_pos hmid,
          hagree ind (by omega), hagree (ind - 1) (by omega)]
      · have hne0 : ind ≠ 0 := fun h => h0 (Or.inl h)
        rw [if_neg h0, if_neg h0, if_neg hmid, if_neg hmid, hagree (ind - 1) (by omega)]
  have hline : ∀ ti, nonbranch_line lc cmp counts₁ tuples ti =
      nonbranch_line lc cmp counts₂ tuples ti := by
    intro ti
    simp only [nonbranch_line, ← hlen]
    have hmap : List.map
        (fun ind => branch_term lc cmp (inverse_comparator_of cmp) counts₁ counts₁.length ind
          ((tuples.getD ti (none, "", [])).2.2.getD ind ""))
        (List.range counts₁.length) =
      List.map
        (fun ind => branch_term lc cmp (inverse_comparator_of cmp) counts₂ counts₁.length ind
          ((tuples.getD ti (none, "", [])).2.2.getD ind ""))
        (List.range counts₁.length) := by
      apply List.map_congr_left
      intro ind hind
      exact hterm ind _ (List.mem_range.mp hind)
    rw [hmap]
  have hbr : select_branching s lc cmp counts₁ tuples = select_branching s lc cmp counts₂ tuples := by
    rw [select_branching_spec, select_branching_spec, ← hlen]
    have hmap : (List.range counts₁.length).map
        (fun ind => indentStr s.indent_level ++ arm_text lc cmp counts₁ tuples counts₁.length ind) =
      (List.range counts₁.length).map
        (fun ind => indentStr s.indent_level ++ arm_text lc cmp counts₂ tuples counts₁.length ind) := by
      apply List.map_congr_left
      intro ind hind
      rw [harm ind (List.mem_range.mp hind)]
    rw [hmap]
  have hnb : select_nonbranch s lc cmp counts₁ tuples = select_nonbranch s lc cmp counts₂ tuples := by
    rw [select_nonbranch_spec, select_nonbranch_spec]
    have : (List.range tuples.length).map
        (fun ti => indentStr s.indent_level ++ nonbranch_line lc cmp counts₁ tuples ti) =
      (List.range tuples.length).map
        (fun ti => indentStr s.indent_level ++ nonbranch_line lc cmp counts₂ tuples ti) := by
      apply List.map_congr_left
      intro ti _
      rw [hline ti]
    rw [this]
  refine ⟨hbr, hnb, ?_⟩
  unfold gen_add_multi_threaded_select
  split
  · exact hbr
  · exact hnb

/-- Witness for C10 (amended): comparator `<`, threshold lists `["6","9"]`
and `["6","12"]` differing only in the last entry. -/
theorem C10_last_threshold_unused_witness :
    select_branching ⟨[], 0⟩ "k" "<" ["6", "9"] [(none, "x", ["1", "2"])] =
      select_branching ⟨[], 0⟩ "k" "<" ["6", "12"] [(none, "x", ["1", "2"])] ∧
    select_nonbranch ⟨[], 0⟩ "k" "<" ["6", "9"] [(none, "x", ["1", "2"])] =
      select_nonbranch ⟨[], 0⟩ "k" "<" ["6", "12"] [(none, "x", ["1", "2"])] ∧
    gen_add_multi_threaded_select ⟨[], 0⟩ "k" "<" ["6", "9"] [(none, "x", ["1", "2"])] false =
      gen_add_multi_threaded_select ⟨[], 0⟩ "k" "<" ["6", "12"] [(none, "x", ["1", "2"])] false :=
  C10_last_threshold_unused "<" (by decide) ["6", "9"] ["6", "12"] (by decide) (by decide)
    (by decide) ⟨[], 0⟩ "k" [(none, "x", ["1", "2"])] false

/-- C7: `gen_add_serial_ops` with default arguments followed immediately by
`gen_add_end_control_flow` appends exactly two chunks —
`if(threadIdx.x == 0 && threadIdx.y == 0){` and `}` — both indented at the
original depth, and leaves the indentation depth unchanged. -/
theorem C7_serial_ops_roundtrip (s : GenState) :
    gen_add_end_control_flow (gen_add_serial_ops s false) =
      ⟨s.code_str ++
        [indentStr s.indent_level ++ "if(threadIdx.x == 0 && threadIdx.y == 0)\x7b",
          indentStr s.indent_level ++ "\x7d"],
        s.indent_level⟩ := by
  simp [gen_add_serial_ops, gen_add_end_control_flow, gen_add_code_line, add_sub_cancel_right]

theorem gen_add_sync_spec (s : GenState) (u : Bool) :
    gen_add_sync s u = ⟨s.code_str ++ [sync_chunk s.indent_level u], s.indent_level⟩ := by
  cases u <;> simp [gen_add_sync, gen_add_code_line, sync_chunk]

theorem copy_block_spec (s : GenState) (amount body : String) (u : Bool) :
    gen_add_end_control_flow
        (gen_add_code_line (gen_parallel_loop_nb s "ind" amount u) body false) =
      ⟨s.code_str ++ copy_block s.indent_level amount u body, s.indent_level⟩ := by
  simp [gen_parallel_loop_nb, gen_add_code_line, gen_add_end_control_flow, copy_block,
    add_sub_cancel_right]

theorem gen_kernel_load_inputs_spec (s : GenState) (name st am : String) (u : Bool)
    (n2 : Option String) (st2 am2 : String) (n3 : Option String) (st3 am3 : String) :
    gen_kernel_load_inputs s name st am u n2 st2 am2 n3 st3 am3 =
      ⟨(s.code_str ++
        ([indentStr s.indent_level ++ "// load to shared mem",
          indentStr s.indent_level ++
            ("const T *d_" ++ name ++ "_k = &d_" ++ name ++ "[k*" ++ st ++ "];")] ++
          copy_block s.indent_level am u ("s_" ++ name ++ "[ind] = d_" ++ name ++ "_k[ind];") ++
          (match n2 with
            | none => []
            | some x =>
              (indentStr s.indent_level ++
                ("const T *d_" ++ x ++ "_k = &d_" ++ x ++ "[k*" ++ st2 ++ "];")) ::
                copy_block s.indent_level am2 u ("s_" ++ x ++ "[ind] = d_" ++ x ++ "_k[ind];")) ++
          (match n3 with
            | none => []
            | some x =>
              (indentStr s.indent_level ++
                ("const T *d_" ++ x ++ "_k = &d_" ++ x ++ "[k*" ++ st3 ++ "];")) ::
                copy_block s.indent_level am3 u ("s_" ++ x ++ "[ind] = d_" ++ x ++ "_k[ind];")))) ++
        [sync_chunk s.indent_level u],
        s.indent_level⟩ := by
  cases n2 <;> cases n3 <;>
    simp [gen_kernel_load_inputs, gen_add_code_line, gen_parallel_loop_nb,
      gen_add_end_control_flow, gen_add_sync_spec, copy_block, sync_chunk, add_sub_cancel_right]

theorem gen_kernel_save_result_spec (s : GenState) (n st am : String) (u : Bool)
    (lfn : Option String) :
    gen_kernel_save_result s n st am u lfn =
      ⟨(s.code_str ++
        ([indentStr s.indent_level ++ "// save down to global",
          indentStr s.indent_level ++
            ("T *d_" ++ n ++ "_k = &d_" ++ n ++ "[k*" ++ st ++ "];")] ++
          copy_block s.indent_level am u
            ("d_" ++ n ++ "_k[ind] = " ++ lfn.getD ("s_" ++ n) ++ "[ind];"))) ++
        [sync_chunk s.indent_level u],
        s.indent_level⟩ := by
  simp [gen_kernel_save_result, gen_add_code_line, gen_parallel_loop_nb,
    gen_add_end_control_flow, gen_add_sync_spec, copy_block, sync_chunk, add_sub_cancel_right]

theorem gen_kernel_load_inputs_single_timing_spec (s : GenState) (name am : String) (u : Bool)
    (n2 : Option String) (am2 : String) (n3 : Option String) (am3 : String) :
    gen_kernel_load_inputs_single_timing s name am u n2 am2 n3 am3 =
      ⟨(s.code_str ++
        ((indentStr s.indent_level ++ "// load to shared mem") ::
          copy_block s.indent_level am u ("s_" ++ name ++ "[ind] = d_" ++ name ++ "[ind];") ++
          (match n2 with
            | none => []
            | some x => copy_block s.indent_level am2 u ("s_" ++ x ++ "[ind] = d_" ++ x ++ "[ind];")) ++
          (match n3 with
            | none => []
            | some x => copy_block s.indent_level am3 u ("s_" ++ x ++ "[ind] = d_" ++ x ++ "[ind];")))) ++
        [sync_chunk s.indent_level u],
        s.indent_level⟩ := by
  cases n2 <;> cases n3 <;>
    simp [gen_kernel_load_inputs_single_timing, gen_add_code_line, gen_parallel_loop_nb,
      gen_add_end_control_flow, gen_add_sync_spec, copy_block, sync_chunk, add_sub_cancel_right]

theorem gen_kernel_save_result_single_timing_spec (s : GenState) (n am : String) (u : Bool)
    (lfn : Option String) :
    gen_kernel_save_result_single_timing s n am u lfn =
      ⟨(s.code_str ++
        ((indentStr s.indent_level ++ "// save down to global") ::
          copy_block s.indent_level am u
            ("d_" ++ n ++ "[ind] = " ++ lfn.getD ("s_" ++ n) ++ "[ind];"))) ++
        [sync_chunk s.indent_level u],
        s.indent_level⟩ := by
  simp [gen_kernel_save_result_single_timing, gen_add_code_line, gen_parallel_loop_nb,
    gen_add_end_control_flow, gen_add_sync_spec, copy_block, sync_chunk, add_sub_cancel_right]

/-- C8: for all arguments, each of `gen_kernel_load_inputs`,
`gen_kernel_save_result`, `gen_kernel_load_inputs_single_timing` and
`gen_kernel_save_result_single_timing` appends to the buffer (the previous
buffer is a prefix of the new one), restores the indentation depth (every
per-buffer copy loop it opens is closed), and the last chunk each call
appends is the synchronization statement — `tgrp.sync();` under
`use_thread_group`, `__syncthreads();` otherwise — at the original depth. -/
theorem C8_trailing_barrier (s : GenState) (u : Bool)
    (name st am : String) (n2 : Option String) (st2 am2 : String)
    (n3 : Option String) (st3 am3 : String)
    (sn sst sam : String) (slfn : Option String)
    (ln lam : String) (ln2 : Option String) (lam2 : String)
    (ln3 : Option String) (lam3 : String)
    (tn tam : String) (tlfn : Option String) :
    ((gen_kernel_load_inputs s name st am u n2 st2 am2 n3 st3 am3).indent_level =
        s.indent_level ∧
      s.code_str <+: (gen_kernel_load_inputs s name st am u n2 st2 am2 n3 st3 am3).code_str ∧
      (gen_kernel_load_inputs s name st am u n2 st2 am2 n3 st3 am3).code_str.getLast? =
        some (sync_chunk s.indent_level u)) ∧
    ((gen_kernel_save_result s sn sst sam u slfn).indent_level = s.indent_level ∧
      s.code_str <+: (gen_kernel_save_result s sn sst sam u slfn).code_str ∧
      (gen_kernel_save_result s sn sst sam u slfn).code_str.getLast? =
        some (sync_chunk s.indent_level u)) ∧
    ((gen_kernel_load_inputs_single_timing s ln lam u ln2 lam2 ln3 lam3).indent_level =
        s.indent_level ∧
      s.code_str <+:
        (gen_kernel_load_inputs_single_timing s ln lam u ln2 lam2 ln3 lam3).code_str ∧
      (gen_kernel_load_inputs_single_timing s ln lam u ln2 lam2 ln3 lam3).code_str.getLast? =
        some (sync_chunk s.indent_level u)) ∧
    ((gen_kernel_save_result_single_timing s tn tam u tlfn).indent_level = s.indent_level ∧
      s.code_str <+: (gen_kernel_save_result_single_timing s tn tam u tlfn).code_str ∧
      (gen_kernel_save_result_single_timing s tn tam u tlfn).code_str.getLast? =
        some (sync_chunk s.indent_level u)) := by
  rw [gen_kernel_load_inputs_spec, gen_kernel_save_result_spec,
    gen_kernel_load_inputs_single_timing_spec, gen_kernel_save_result_single_timing_spec]
  refine ⟨⟨rfl, ?_, List.getLast?_concat _⟩, ⟨rfl, ?_, List.getLast?_concat _⟩,
    ⟨rfl, ?_, List.getLast?_concat _⟩, ⟨rfl, ?_, List.getLast?_concat _⟩⟩ <;>
    · rw [List.append_assoc]
      exact List.prefix_append _ _

theorem code_lines_indent (s : GenState) (ts : List String) (f : Bool) :
    (gen_add_code_lines s ts f).indent_level =
      if f then s.indent_level + 1 else s.indent_level := by
  unfold gen_add_code_lines
  rw [foldl_lines_spec]
  cases f <;> simp

theorem gen_add_code_line_false_indent (s : GenState) (t : String) :
    (gen_add_code_line s t false).indent_level = s.indent_level := rfl

theorem foldl_lines_indent {α : Type} (tf : α → String) (l : List α) (s : GenState) :
    (l.foldl (fun st x => gen_add_code_line st (tf x) false) s).indent_level =
      s.indent_level := by
  rw [foldl_lines_spec]

theorem func_doc_indent (s : GenState) (d : String) (ns ps : List String)
    (r : Option String) : (gen_add_func_doc s d ns ps r).indent_level = s.indent_level := by
  cases r <;> by_cases h : 0 < ns.length <;>
    simp [gen_add_func_doc, h, gen_add_code_line_false_indent, foldl_lines_indent]

theorem print_shared_indent (s : GenState) (v : String) (nc sz : Nat) :
    (print_shared s v nc sz).indent_level = s.indent_level := by
  simp [print_shared, gen_add_sync, gen_add_serial_ops, gen_add_code_line,
    gen_add_end_control_flow, add_sub_cancel_right]

theorem multi_select_indent (s : GenState) (lc cmp : String) (cs : List String)
    (ts : List SelTuple) (f : Bool) :
    (gen_add_multi_threaded_select s lc cmp cs ts f).indent_level = s.indent_level := by
  unfold gen_add_multi_threaded_select
  split
  · rw [select_branching_spec]
  · rw [select_nonbranch_spec]

/-- Each supported call succeeds and shifts the depth by its opener count
minus its closer count. -/
theorem runCall_ok (s : GenState) (c : EmitCall) (h : callSupported c = true) :
    ∃ s', runCall s c = .ok s' ∧
      s'.indent_level =
        s.indent_level + (openerCount c : Int) - (closerCount c : Int) := by
  cases c with
  | code_line t f =>
    refine ⟨_, rfl, ?_⟩
    cases f <;> simp [gen_add_code_line, openerCount, closerCount]
  | code_lines ts f =>
    refine ⟨_, rfl, ?_⟩
    rw [code_lines_indent]
    cases f <;> simp [openerCount, closerCount]
  | end_control_flow =>
    refine ⟨_, rfl, ?_⟩
    simp [gen_add_end_control_flow, gen_add_code_line, openerCount, closerCount]
  | end_function =>
    refine ⟨_, rfl, ?_⟩
    simp [gen_add_end_function, gen_add_code_line, openerCount, closerCount]
  | func_doc d ns ps r =>
    refine ⟨_, rfl, ?_⟩
    rw [func_doc_indent]
    simp [openerCount, closerCount]
  | serial_ops u =>
    refine ⟨_, rfl, ?_⟩
    cases u <;> simp [gen_add_serial_ops, gen_add_code_line, openerCount, closerCount]
  | parallel_loop v m u b =>
    cases b with
    | false =>
      cases u <;>
        exact ⟨_, rfl, by
          simp [gen_add_parallel_loop, parallel_loop_code, gen_add_code_line,
            openerCount, closerCount]⟩
    | true =>
      cases u with
      | true => simp [callSupported] at h
      | false =>
        exact ⟨_, rfl, by
          simp [gen_add_parallel_loop, parallel_loop_code, gen_add_code_line,
            openerCount, closerCount]⟩
  | sync u =>
    refine ⟨_, rfl, ?_⟩
    cases u <;> simp [gen_add_sync, gen_add_code_line, openerCount, closerCount]
  | print_shared_call v nc sz =>
    refine ⟨_, rfl, ?_⟩
    rw [print_shared_indent]
    simp [openerCount, closerCount]
  | multi_select lc cmp cs ts f =>
    refine ⟨_, rfl, ?_⟩
    rw [multi_select_indent]
    simp [openerCount, closerCount]
  | kernel_load n st am n2 st2 am2 n3 st3 am3 u =>
    refine ⟨_, rfl, ?_⟩
    rw [gen_kernel_load_inputs_spec]
    simp [openerCount, closerCount]
  | kernel_save n st am u lfn =>
    refine ⟨_, rfl, ?_⟩
    rw [gen_kernel_save_result_spec]
    simp [openerCount, closerCount]
  | kernel_load_single n am u n2 am2 n3 am3 =>
    refine ⟨_, rfl, ?_⟩
    rw [gen_kernel_load_inputs_single_timing_spec]
    simp [openerCount, closerCount]
  | kernel_save_single n am u lfn =>
    refine ⟨_, rfl, ?_⟩
    rw [gen_kernel_save_result_single_timing_spec]
    simp [openerCount, closerCount]

/-- A supported sequence of calls succeeds and shifts the depth by the total
opener count minus the total closer count. -/
theorem runCalls_delta : ∀ (calls : List EmitCall) (s : GenState),
    calls.all callSupported = true →
    ∃ s', runCalls s calls = .ok s' ∧
      s'.indent_level = s.indent_level + ((calls.map openerCount).sum : Int) -
        ((calls.map closerCount).sum : Int) := by
  intro calls
  induction calls with
  | nil =>
    intro s _
    exact ⟨s, rfl, by simp⟩
  | cons c cs ih =>
    intro s hsup
    rw [List.all_cons, Bool.and_eq_true] at hsup
    obtain ⟨s₁, h₁, hd₁⟩ := runCall_ok s c hsup.1
    obtain ⟨s', h', hd'⟩ := ih s₁ hsup.2
    refine ⟨s', ?_, ?_⟩
    · rw [show runCalls s (c :: cs) =
        (match runCall s c with
          | .ok s₁ => runCalls s₁ cs
          | .error e => .error e) from rfl, h₁]
      exact h'
    · rw [hd', hd₁]
      simp only [List.map_cons, List.sum_cons]
      push_cast
      ring

/-- C6: for every starting depth, any balanced sequence of supported emission
calls — each opener (`gen_add_code_line`/`gen_add_code_lines` with
`add_indent_after`, `gen_add_serial_ops`, a supported
`gen_add_parallel_loop`) matched by a later closer
(`gen_add_end_control_flow`/`gen_add_end_function`), closers never
outnumbering preceding openers — returns the indentation depth to its
starting value. -/
theorem C6_balanced_depth_roundtrip (s : GenState) (calls : List EmitCall)
    (hsup : calls.all callSupported = true) (hbal : balanced calls) :
    ∃ s', runCalls s calls = .ok s' ∧ s'.indent_level = s.indent_level := by
  obtain ⟨s', h, hd⟩ := runCalls_delta calls s hsup
  refine ⟨s', h, ?_⟩
  rw [hd, hbal.1]
  simp

/-- Witness for C6: a concrete balanced sequence (serial section containing a
sync and a nested one-line block) run from depth 3 returns to depth 3. -/
theorem C6_balanced_depth_roundtrip_witness :
    ∃ s', runCalls ⟨[], 3⟩
        [.serial_ops false, .sync false, .code_line "x = 1;" true,
          .end_control_flow, .end_control_flow] = .ok s' ∧
      s'.indent_level = 3 :=
  C6_balanced_depth_roundtrip ⟨[], 3⟩ _ (by decide) (by decide)
